import Mathlib

/-!
Verification of the key-derivation, authenticated-encryption and
request-authentication core of the myhome-app repository.

Client side: `src/lib/crypto-utils.ts` (class CryptoUtils: Save, Get, Delete,
deriveEncryptionKey, deriveAuthKey, importECPrivateKey, getPublicJWK,
createAuthHeader).  Server side: the secrets API route (parseAuthHeader,
pubKeyDigest, and the POST, GET and DELETE handlers).

Cryptographic primitives supplied by the platform (WebCrypto, @noble/curves)
are modelled symbolically: HKDF / HMAC / SHA-256 outputs are deterministic
functions of their inputs, an AES-GCM ciphertext records the key, iv,
additional data and plaintext that produced it and decrypts only under the
identical parameters, and an ECDSA signature records the signing scalar and
the exact message text and verifies only against the matching public key and
message.  Byte strings are `List Nat` with entries below 256.  The base64url
codec (package arraybuffer-encoding/base64/url) and the JSON string escaping
performed by JSON.stringify are modelled concretely, with decoding
left-inverses proved below.
-/

namespace MyHomeApp

/-- Byte strings: lists of naturals, each below 256 where it matters. -/
abbrev Bytes := List Nat

/-! ## base64url (model of arraybuffer-encoding/base64/url) -/

/-- Character of the base64url alphabet for a 6-bit value. -/
def b64Char (n : Nat) : Char :=
  if n < 26 then Char.ofNat (65 + n)
  else if n < 52 then Char.ofNat (97 + (n - 26))
  else if n < 62 then Char.ofNat (48 + (n - 52))
  else if n = 62 then '-'
  else '_'

/-- 6-bit value of a base64url alphabet character. -/
def b64Val (c : Char) : Option Nat :=
  if 65 ≤ c.toNat ∧ c.toNat ≤ 90 then some (c.toNat - 65)
  else if 97 ≤ c.toNat ∧ c.toNat ≤ 122 then some (c.toNat - 97 + 26)
  else if 48 ≤ c.toNat ∧ c.toNat ≤ 57 then some (c.toNat - 48 + 52)
  else if c = '-' then some 62
  else if c = '_' then some 63
  else none

/-- Unpadded base64url encoding of a byte string. -/
def b64Encode : Bytes → List Char
  | [] => []
  | [a] => [b64Char (a / 4), b64Char (a % 4 * 16)]
  | [a, b] => [b64Char (a / 4), b64Char (a % 4 * 16 + b / 16), b64Char (b % 16 * 4)]
  | a :: b :: c :: rest =>
    b64Char (a / 4) :: b64Char (a % 4 * 16 + b / 16) :: b64Char (b % 16 * 4 + c / 64) ::
      b64Char (c % 64) :: b64Encode rest

/-- Unpadded base64url decoding. -/
def b64Decode : List Char → Option Bytes
  | [] => some []
  | [c1, c2] =>
    match b64Val c1, b64Val c2 with
    | some v1, some v2 => some [v1 * 4 + v2 / 16]
    | _, _ => none
  | [c1, c2, c3] =>
    match b64Val c1, b64Val c2, b64Val c3 with
    | some v1, some v2, some v3 => some [v1 * 4 + v2 / 16, v2 % 16 * 16 + v3 / 4]
    | _, _, _ => none
  | c1 :: c2 :: c3 :: c4 :: rest =>
    match b64Val c1, b64Val c2, b64Val c3, b64Val c4, b64Decode rest with
    | some v1, some v2, some v3, some v4, some bs =>
      some ((v1 * 4 + v2 / 16) :: (v2 % 16 * 16 + v3 / 4) :: (v3 % 4 * 64 + v4) :: bs)
    | _, _, _, _, _ => none
  | [_] => none

/-- base64url as a string, as the TypeScript Encode helper returns it. -/
def b64S (bs : Bytes) : String := String.mk (b64Encode bs)

/-- base64url decoding of a string, as the TypeScript Decode helper. -/
def b64DecodeS (s : String) : Option Bytes := b64Decode s.data

theorem b64Val_b64Char : ∀ n < 64, b64Val (b64Char n) = some n := by decide

theorem b64Decode_b64Encode : ∀ bs : Bytes, (∀ b ∈ bs, b < 256) →
    b64Decode (b64Encode bs) = some bs
  | [], _ => rfl
  | [a], h => by
    have ha : a < 256 := h a (by simp)
    have e1 : b64Val (b64Char (a / 4)) = some (a / 4) := b64Val_b64Char _ (by omega)
    have e2 : b64Val (b64Char (a % 4 * 16)) = some (a % 4 * 16) := b64Val_b64Char _ (by omega)
    simp only [b64Encode, b64Decode, e1, e2, Option.some.injEq, List.cons.injEq, and_true]
    omega
  | [a, b], h => by
    have ha : a < 256 := h a (by simp)
    have hb : b < 256 := h b (by simp)
    have e1 : b64Val (b64Char (a / 4)) = some (a / 4) := b64Val_b64Char _ (by omega)
    have e2 : b64Val (b64Char (a % 4 * 16 + b / 16)) = some (a % 4 * 16 + b / 16) :=
      b64Val_b64Char _ (by omega)
    have e3 : b64Val (b64Char (b % 16 * 4)) = some (b % 16 * 4) := b64Val_b64Char _ (by omega)
    simp only [b64Encode, b64Decode, e1, e2, e3, Option.some.injEq, List.cons.injEq, and_true]
    omega
  | a :: b :: c :: rest, h => by
    have ha : a < 256 := h a (by simp)
    have hb : b < 256 := h b (by simp)
    have hc : c < 256 := h c (by simp)
    have ih := b64Decode_b64Encode rest (fun x hx => h x (by simp [hx]))
    have e1 : b64Val (b64Char (a / 4)) = some (a / 4) := b64Val_b64Char _ (by omega)
    have e2 : b64Val (b64Char (a % 4 * 16 + b / 16)) = some (a % 4 * 16 + b / 16) :=
      b64Val_b64Char _ (by omega)
    have e3 : b64Val (b64Char (b % 16 * 4 + c / 64)) = some (b % 16 * 4 + c / 64) :=
      b64Val_b64Char _ (by omega)
    have e4 : b64Val (b64Char (c % 64)) = some (c % 64) := b64Val_b64Char _ (by omega)
    simp only [b64Encode, b64Decode, e1, e2, e3, e4, ih, Option.some.injEq, List.cons.injEq]
    refine ⟨by omega, by omega, by omega, trivial⟩

theorem b64DecodeS_b64S (bs : Bytes) (h : ∀ b ∈ bs, b < 256) :
    b64DecodeS (b64S bs) = some bs := b64Decode_b64Encode bs h

/-! ## JSON string escaping (model of JSON.stringify on strings) -/

/-- Lowercase hex digit. -/
def hexDigitChar (n : Nat) : Char :=
  if n < 10 then Char.ofNat (48 + n) else Char.ofNat (87 + n)

/-- Hex digit value (digits and lowercase letters). -/
def hexVal (c : Char) : Option Nat :=
  if 48 ≤ c.toNat ∧ c.toNat ≤ 57 then some (c.toNat - 48)
  else if 97 ≤ c.toNat ∧ c.toNat ≤ 102 then some (c.toNat - 87)
  else none

theorem hexVal_hexDigitChar : ∀ n < 16, hexVal (hexDigitChar n) = some n := by decide

/-- JSON.stringify escaping of one character. -/
def escChar (c : Char) : List Char :=
  if c = '"' then ['\\', '"']
  else if c = '\\' then ['\\', '\\']
  else if c.toNat = 8 then ['\\', 'b']
  else if c.toNat = 9 then ['\\', 't']
  else if c.toNat = 10 then ['\\', 'n']
  else if c.toNat = 12 then ['\\', 'f']
  else if c.toNat = 13 then ['\\', 'r']
  else if c.toNat < 32 then
    ['\\', 'u', '0', '0', hexDigitChar (c.toNat / 16), hexDigitChar (c.toNat % 16)]
  else [c]

/-- JSON.stringify escaping of a character list. -/
def escStr : List Char → List Char
  | [] => []
  | c :: s => escChar c ++ escStr s

/-- The JSON rendering of a string value: quote, escape, quote. -/
def jsonQuote (s : List Char) : List Char := '"' :: (escStr s ++ ['"'])

/-- The JSON rendering of a string, at `String` type. -/
def jsonQuoteS (s : String) : String := String.mk (jsonQuote s.data)

/-- Prepend a character to the decoded part of a scan result. -/
def consFst (c : Char) : Option (List Char × List Char) → Option (List Char × List Char)
  | some (s, r) => some (c :: s, r)
  | none => none

/-- Scan an escaped JSON string body up to its closing quote, returning the
decoded content and the remainder after the quote. -/
def unesc : List Char → Option (List Char × List Char)
  | [] => none
  | c :: rest =>
    if c = '"' then some ([], rest)
    else if c = '\\' then
      match rest with
      | [] => none
      | e :: rest2 =>
        if e = '"' then consFst '"' (unesc rest2)
        else if e = '\\' then consFst '\\' (unesc rest2)
        else if e = 'b' then consFst (Char.ofNat 8) (unesc rest2)
        else if e = 't' then consFst (Char.ofNat 9) (unesc rest2)
        else if e = 'n' then consFst (Char.ofNat 10) (unesc rest2)
        else if e = 'f' then consFst (Char.ofNat 12) (unesc rest2)
        else if e = 'r' then consFst (Char.ofNat 13) (unesc rest2)
        else if e = 'u' then
          match rest2 with
          | h1 :: h2 :: h3 :: h4 :: rest3 =>
            match hexVal h1, hexVal h2, hexVal h3, hexVal h4 with
            | some a, some b, some c2, some d =>
              consFst (Char.ofNat (4096 * a + 256 * b + 16 * c2 + d)) (unesc rest3)
            | _, _, _, _ => none
          | _ => none
        else none
    else consFst c (unesc rest)

theorem consFst_some (c x : Char) (s r : List Char) :
    consFst c (some (x :: s, r)) = some (c :: x :: s, r) := rfl

theorem unesc_escChar (c : Char) (l : List Char) :
    unesc (escChar c ++ l) = consFst c (unesc l) := by
  by_cases h1 : c = '"'
  · subst h1
    rw [show escChar '"' ++ l = '\\' :: '"' :: l by rw [escChar]; simp, unesc.eq_def]
    simp
  by_cases h2 : c = '\\'
  · subst h2
    rw [show escChar '\\' ++ l = '\\' :: '\\' :: l by rw [escChar]; simp, unesc.eq_def]
    simp
  by_cases h3 : c.toNat = 8
  · have hcc : c = Char.ofNat 8 := by rw [← h3, Char.ofNat_toNat]
    rw [show escChar c ++ l = '\\' :: 'b' :: l by rw [escChar]; simp [h1, h2, h3], unesc.eq_def]
    simp [hcc]
  by_cases h4 : c.toNat = 9
  · have hcc : c = Char.ofNat 9 := by rw [← h4, Char.ofNat_toNat]
    rw [show escChar c ++ l = '\\' :: 't' :: l by
      rw [escChar]; simp [h1, h2, h3, h4], unesc.eq_def]
    simp [hcc]
  by_cases h5 : c.toNat = 10
  · have hcc : c = Char.ofNat 10 := by rw [← h5, Char.ofNat_toNat]
    rw [show escChar c ++ l = '\\' :: 'n' :: l by
      rw [escChar]; simp [h1, h2, h3, h4, h5], unesc.eq_def]
    simp [hcc]
  by_cases h6 : c.toNat = 12
  · have hcc : c = Char.ofNat 12 := by rw [← h6, Char.ofNat_toNat]
    rw [show escChar c ++ l = '\\' :: 'f' :: l by
      rw [escChar]; simp [h1, h2, h3, h4, h5, h6], unesc.eq_def]
    simp [hcc]
  by_cases h7 : c.toNat = 13
  · have hcc : c = Char.ofNat 13 := by rw [← h7, Char.ofNat_toNat]
    rw [show escChar c ++ l = '\\' :: 'r' :: l by
      rw [escChar]; simp [h1, h2, h3, h4, h5, h6, h7], unesc.eq_def]
    simp [hcc]
  by_cases h8 : c.toNat < 32
  · have hv1 : hexVal (hexDigitChar (c.toNat / 16)) = some (c.toNat / 16) :=
      hexVal_hexDigitChar _ (by omega)
    have hv2 : hexVal (hexDigitChar (c.toNat % 16)) = some (c.toNat % 16) :=
      hexVal_hexDigitChar _ (by omega)
    have hz : hexVal '0' = some 0 := rfl
    have hcc : Char.ofNat (16 * (c.toNat / 16) + c.toNat % 16) = c := by
      rw [show 16 * (c.toNat / 16) + c.toNat % 16 = c.toNat by omega, Char.ofNat_toNat]
    rw [show escChar c ++ l =
        '\\' :: 'u' :: '0' :: '0' :: hexDigitChar (c.toNat / 16) ::
          hexDigitChar (c.toNat % 16) :: l by
      rw [escChar]; simp [h1, h2, h3, h4, h5, h6, h7, h8], unesc.eq_def]
    simp [hz, hv1, hv2, hcc]
  · rw [show escChar c ++ l = c :: l by
      rw [escChar]; simp [h1, h2, h3, h4, h5, h6, h7, h8], unesc.eq_def]
    simp [h1, h2]

theorem unesc_escStr (s : List Char) : ∀ r : List Char,
    unesc (escStr s ++ '"' :: r) = some (s, r) := by
  induction s with
  | nil =>
    intro r
    rw [show escStr [] ++ '"' :: r = '"' :: r by rw [escStr]; simp, unesc.eq_def]
    simp
  | cons c s ih =>
    intro r
    rw [show escStr (c :: s) = escChar c ++ escStr s by rw [escStr], List.append_assoc,
      unesc_escChar, ih]
    rfl

theorem jsonQuote_append_inj {a b r1 r2 : List Char}
    (h : jsonQuote a ++ r1 = jsonQuote b ++ r2) : a = b ∧ r1 = r2 := by
  have ha : jsonQuote a ++ r1 = '"' :: (escStr a ++ '"' :: r1) := by
    simp [jsonQuote]
  have hb : jsonQuote b ++ r2 = '"' :: (escStr b ++ '"' :: r2) := by
    simp [jsonQuote]
  rw [ha, hb] at h
  have := congrArg unesc ((List.cons.injEq _ _ _ _).mp h).2
  rw [unesc_escStr, unesc_escStr] at this
  simpa using this

/-! ## Symbolic platform primitives

WebCrypto digests and the P-256 scalar-multiplication of @noble/curves are
opaque to the repository; they are modelled as arbitrary deterministic
functions with the right output length.  No claim below relies on any other
property of them. -/

/-- Model of TextEncoder.encode: one code per character (UTF-8 is injective;
code points stand in for its bytes). -/
def strBytes (s : String) : Bytes := s.data.map Char.toNat

/-- Symbolic HMAC-SHA384: a deterministic 48-byte function of key and
message. -/
def hmacSHA384 (key : Bytes) (msg : Bytes) : Bytes :=
  (List.range 48).map (fun i => (key.sum * 31 + msg.sum * 7 + i) % 256)

/-- Symbolic SHA-256: a deterministic 32-byte function of its input. -/
def sha256 (bs : Bytes) : Bytes := (List.range 32).map (fun i => (bs.sum + i) % 256)

/-- Symbolic x-coordinate of p256.getPublicKey for a private scalar. -/
def p256PubX (d : Bytes) : Bytes := (List.range 32).map (fun i => (d.sum * 3 + i) % 256)

/-- Symbolic y-coordinate of p256.getPublicKey for a private scalar. -/
def p256PubY (d : Bytes) : Bytes := (List.range 32).map (fun i => (d.sum * 5 + i + 1) % 256)

theorem hmacSHA384_length (k m : Bytes) : (hmacSHA384 k m).length = 48 := by
  simp [hmacSHA384]

theorem hmacSHA384_lt (k m : Bytes) : ∀ b ∈ hmacSHA384 k m, b < 256 := by
  intro b hb
  simp only [hmacSHA384, List.mem_map, List.mem_range] at hb
  obtain ⟨i, _, rfl⟩ := hb
  omega

theorem p256PubX_lt (d : Bytes) : ∀ b ∈ p256PubX d, b < 256 := by
  intro b hb
  simp only [p256PubX, List.mem_map, List.mem_range] at hb
  obtain ⟨i, _, rfl⟩ := hb
  omega

theorem p256PubY_lt (d : Bytes) : ∀ b ∈ p256PubY d, b < 256 := by
  intro b hb
  simp only [p256PubY, List.mem_map, List.mem_range] at hb
  obtain ⟨i, _, rfl⟩ := hb
  omega

/-! ## JWK objects and EC keys -/

/-- JSON Web Key object; absent members are `none` (JSON.stringify skips
`undefined` members). -/
structure JWK where
  kty : Option String := none
  crv : Option String := none
  d : Option String := none
  x : Option String := none
  y : Option String := none
  use : Option String := none
  key_ops : Option (List String) := none
deriving DecidableEq

/-- An imported EC private CryptoKey: the JWK it was imported from plus the
raw scalar used for signing. -/
structure ECPrivateKey where
  jwk : JWK
  scalar : Bytes
deriving DecidableEq

/-- An imported EC public verification key: its curve point coordinates as
base64url strings (the JWK x and y members). -/
structure ECPublicKey where
  x : String
  y : String
deriving DecidableEq

/-- Symbolic ECDSA signature: records the signing scalar and the exact signed
message; verifies only against the matching public key and message. -/
structure ECDSASignature where
  signerD : Bytes
  msg : String
deriving DecidableEq

def ecdsaSign (k : ECPrivateKey) (msg : String) : ECDSASignature := ⟨k.scalar, msg⟩

def ecdsaVerify (pk : ECPublicKey) (sig : ECDSASignature) (msg : String) : Bool :=
  b64S (p256PubX sig.signerD) == pk.x && b64S (p256PubY sig.signerD) == pk.y && sig.msg == msg

/-- Wire form of a symbolic signature (stands in for the base64url of the raw
ECDSA signature bytes). -/
def sigEncode (sig : ECDSASignature) : String :=
  String.mk ('s' :: 'i' :: 'g' :: ':' :: (b64Encode sig.signerD ++ ':' :: sig.msg.data))

/-- Decoding of the wire form of a symbolic signature. -/
def sigDecode (s : String) : Option ECDSASignature :=
  match s.data with
  | 's' :: 'i' :: 'g' :: ':' :: rest =>
    match b64Decode (rest.takeWhile (fun c => c != ':')), rest.dropWhile (fun c => c != ':') with
    | some bs, ':' :: msgCs => some ⟨bs, String.mk msgCs⟩
    | _, _ => none
  | _ => none

theorem b64Char_ne_colon : ∀ n < 64, (b64Char n != ':') = true := by decide

theorem b64Encode_ne_colon : ∀ bs : Bytes, (∀ b ∈ bs, b < 256) →
    ∀ c ∈ b64Encode bs, (c != ':') = true
  | [], _ => by simp [b64Encode]
  | [a], h => by
    have ha : a < 256 := h a (by simp)
    intro c hc
    simp only [b64Encode, List.mem_cons, List.not_mem_nil, or_false] at hc
    rcases hc with rfl | rfl
    · exact b64Char_ne_colon _ (by omega)
    · exact b64Char_ne_colon _ (by omega)
  | [a, b], h => by
    have ha : a < 256 := h a (by simp)
    have hb : b < 256 := h b (by simp)
    intro c hc
    simp only [b64Encode, List.mem_cons, List.not_mem_nil, or_false] at hc
    rcases hc with rfl | rfl | rfl
    · exact b64Char_ne_colon _ (by omega)
    · exact b64Char_ne_colon _ (by omega)
    · exact b64Char_ne_colon _ (by omega)
  | a :: b :: c :: rest, h => by
    have ha : a < 256 := h a (by simp)
    have hb : b < 256 := h b (by simp)
    have hc : c < 256 := h c (by simp)
    have ih := b64Encode_ne_colon rest (fun x hx => h x (by simp [hx]))
    intro z hz
    simp only [b64Encode, List.mem_cons] at hz
    rcases hz with rfl | rfl | rfl | rfl | hz
    · exact b64Char_ne_colon _ (by omega)
    · exact b64Char_ne_colon _ (by omega)
    · exact b64Char_ne_colon _ (by omega)
    · exact b64Char_ne_colon _ (by omega)
    · exact ih z hz

theorem takeWhile_all_append {α : Type} (p : α → Bool) :
    ∀ l1 : List α, (∀ c ∈ l1, p c = true) → ∀ (c0 : α) (l2 : List α), p c0 = false →
      (l1 ++ c0 :: l2).takeWhile p = l1 ∧ (l1 ++ c0 :: l2).dropWhile p = c0 :: l2 := by
  intro l1
  induction l1 with
  | nil =>
    intro _ c0 l2 h0
    simp [List.takeWhile_cons, List.dropWhile_cons, h0]
  | cons a l ih =>
    intro h c0 l2 h0
    have ha := h a (by simp)
    have hrec := ih (fun c hc => h c (by simp [hc])) c0 l2 h0
    simp [List.takeWhile_cons, List.dropWhile_cons, ha, hrec.1, hrec.2]

theorem sigDecode_sigEncode (sig : ECDSASignature) (h : ∀ b ∈ sig.signerD, b < 256) :
    sigDecode (sigEncode sig) = some sig := by
  have hcols : (( ':' : Char) != ':') = false := by decide
  have htk := takeWhile_all_append (fun c => c != ':') (b64Encode sig.signerD)
    (b64Encode_ne_colon sig.signerD h) ':' sig.msg.data hcols
  simp only [sigDecode, sigEncode, htk.1, htk.2, b64Decode_b64Encode sig.signerD h]

/-! ## JWK serialization (JSON.stringify of the JWK object) and the server
parse of the pubKey member (JSON.parse followed by WebCrypto importKey, which
rejects malformed keys).  The renderer emits the canonical member layout the
client produces; the parser accepts exactly that layout. -/

/-- Rendering of `key_ops` member values. -/
def keyOpsRender (ops : List String) : List Char :=
  ",\"key_ops\":[".data ++ List.intercalate [','] (ops.map (fun o => jsonQuote o.data)) ++
    "]".data

/-- JSON.stringify of a JWK object: present members in canonical order,
absent (undefined) members skipped. -/
def jwkToString (j : JWK) : String :=
  String.mk (
    "\x7b\"kty\":".data ++ (jsonQuote (j.kty.getD "").data ++
    (",\"crv\":".data ++ (jsonQuote (j.crv.getD "").data ++
    ((match j.d with
      | some dv => ",\"d\":".data ++ jsonQuote dv.data
      | none => []) ++
    (",\"x\":".data ++ (jsonQuote (j.x.getD "").data ++
    (",\"y\":".data ++ (jsonQuote (j.y.getD "").data ++
    ((match j.use with
      | some uv => ",\"use\":".data ++ jsonQuote uv.data
      | none => []) ++
    ((match j.key_ops with
      | some ops => keyOpsRender ops
      | none => []) ++
    "\x7d".data)))))))))))

/-- Strip an expected literal from the head of a character list. -/
def dropLit : List Char → List Char → Option (List Char)
  | [], l => some l
  | _ :: _, [] => none
  | c :: cs, x :: xs => if x = c then dropLit cs xs else none

theorem dropLit_append : ∀ lit r : List Char, dropLit lit (lit ++ r) = some r
  | [], r => rfl
  | c :: cs, r => by
    rw [show (c :: cs) ++ r = c :: (cs ++ r) from rfl]
    rw [show dropLit (c :: cs) (c :: (cs ++ r)) =
      if c = c then dropLit cs (cs ++ r) else none from rfl]
    rw [if_pos rfl, dropLit_append cs r]

/-- Parse a JSON string value: opening quote, escaped body, closing quote. -/
def parseQ (l : List Char) : Option (List Char × List Char) :=
  match l with
  | '"' :: rest => unesc rest
  | _ => none

theorem parseQ_jsonQuote (a r : List Char) : parseQ (jsonQuote a ++ r) = some (a, r) := by
  rw [show jsonQuote a ++ r = '"' :: (escStr a ++ '"' :: r) by simp [jsonQuote]]
  rw [show parseQ ('"' :: (escStr a ++ '"' :: r)) = unesc (escStr a ++ '"' :: r) from rfl]
  exact unesc_escStr a r

/-- Model of JSON.parse plus WebCrypto importKey applied to the pubKey member:
accepts the canonical public-JWK layout the client emits, rejects anything
else. -/
def jwkParse (s : String) : Option JWK := do
  let l1 ← dropLit "\x7b\"kty\":".data s.data
  let (ktyV, l2) ← parseQ l1
  let l3 ← dropLit ",\"crv\":".data l2
  let (crvV, l4) ← parseQ l3
  let l5 ← dropLit ",\"x\":".data l4
  let (xV, l6) ← parseQ l5
  let l7 ← dropLit ",\"y\":".data l6
  let (yV, l8) ← parseQ l7
  let l9 ← dropLit ",\"key_ops\":[".data l8
  let (opV, l10) ← parseQ l9
  let l11 ← dropLit "]".data l10
  let l12 ← dropLit "\x7d".data l11
  match l12 with
  | [] => some { kty := some (String.mk ktyV), crv := some (String.mk crvV), d := none,
                 x := some (String.mk xV), y := some (String.mk yV), use := none,
                 key_ops := some [String.mk opV] }
  | _ => none

theorem jwkParse_jwkToString (ktyV crvV xV yV opV : String) :
    jwkParse (jwkToString { kty := some ktyV, crv := some crvV, d := none, x := some xV,
                            y := some yV, use := none, key_ops := some [opV] }) =
      some { kty := some ktyV, crv := some crvV, d := none, x := some xV, y := some yV,
             use := none, key_ops := some [opV] } := by
  have hdata : (jwkToString { kty := some ktyV, crv := some crvV, d := none, x := some xV,
                              y := some yV, use := none, key_ops := some [opV] }).data =
      "\x7b\"kty\":".data ++ (jsonQuote ktyV.data ++ (",\"crv\":".data ++
        (jsonQuote crvV.data ++ (",\"x\":".data ++ (jsonQuote xV.data ++
        (",\"y\":".data ++ (jsonQuote yV.data ++ (",\"key_ops\":[".data ++
        (jsonQuote opV.data ++ ("]".data ++ ("\x7d".data ++ []))))))))))) := by
    simp [jwkToString, keyOpsRender, List.intercalate]
  simp only [jwkParse, hdata, dropLit_append, Option.bind_eq_bind, Option.some_bind,
    parseQ_jsonQuote]

/-! ## The signed authentication message

JSON.stringify of `\x7b method, secretName, timestamp, userId, keyId \x7d`
(StorageAuthSignedMessage), with fields in exactly this order on client and
server. -/

/-- The exact JSON text signed by createAuthHeader and reconstructed by the
server's parseAuthHeader. -/
def buildAuthMessage (method secretName : String) (timestamp : Int)
    (userId keyId : String) : String :=
  String.mk (
    "\x7b\"method\":".data ++ (jsonQuote method.data ++
    (",\"secretName\":".data ++ (jsonQuote secretName.data ++
    (",\"timestamp\":".data ++ ((toString timestamp).data ++
    (",\"userId\":".data ++ (jsonQuote userId.data ++
    (",\"keyId\":".data ++ (jsonQuote keyId.data ++
    "\x7d".data))))))))))

theorem buildAuthMessage_inj {m1 m2 sn1 sn2 : String} {t : Int} {u k : String}
    (h : buildAuthMessage m1 sn1 t u k = buildAuthMessage m2 sn2 t u k) :
    m1 = m2 ∧ sn1 = sn2 := by
  simp only [buildAuthMessage] at h
  have h0 := congrArg String.data h
  have h1 := List.append_cancel_left h0
  obtain ⟨hm, h2⟩ := jsonQuote_append_inj h1
  have h3 := List.append_cancel_left h2
  obtain ⟨hsn, _⟩ := jsonQuote_append_inj h3
  exact ⟨String.ext hm, String.ext hsn⟩

/-! ## Key derivation and createAuthHeader (src/lib/crypto-utils.ts) -/

/-- The error taxonomy of signing-key derivation: WebCrypto rejects an empty
(or missing) HMAC root secret at importKey, and importECPrivateKey throws
when the private scalar is not exactly 32 bytes. -/
inductive KeyDerivationError
  | emptyRootSecret
  | invalidScalarLength
deriving DecidableEq

/-- Model of crypto.subtle.importKey('raw', prfOutput, HMAC, ...): WebCrypto
rejects zero-length HMAC key material (and a missing secret). -/
def importHMACKey (keyData : Bytes) : Except KeyDerivationError Bytes :=
  if keyData = [] then .error .emptyRootSecret else .ok keyData

/-- importECPrivateKey: requires a 32-byte scalar, derives the public point
via p256.getPublicKey, builds the private JWK and imports it. -/
def importECPrivateKey (pkBuf : Bytes) : Except KeyDerivationError ECPrivateKey :=
  if pkBuf.length ≠ 32 then .error .invalidScalarLength
  else
    .ok { jwk := { kty := some "EC", crv := some "P-256", d := some (b64S pkBuf),
                   x := some (b64S (p256PubX pkBuf)), y := some (b64S (p256PubY pkBuf)),
                   use := none, key_ops := none },
          scalar := pkBuf }

/-- Model of crypto.subtle.exportKey('jwk', privKey): returns the JWK the key
was imported from. -/
def exportJWK (k : ECPrivateKey) : JWK := k.jwk

/-- getPublicJWK before stringification: delete d and use, set key_ops to
verify. -/
def getPublicJWKObj (k : ECPrivateKey) : JWK :=
  { exportJWK k with d := none, use := none, key_ops := some ["verify"] }

/-- getPublicJWK: the public JWK rendered as a JSON string. -/
def getPublicJWK (k : ECPrivateKey) : String := jwkToString (getPublicJWKObj k)

/-- Client-side CryptoUtils instance state (constructor arguments). -/
structure CryptoUtils where
  prfOutput : Bytes
  baseMessage : String
  userId : Option String := none
  useCloudStorage : Bool := false

/-- Result of deriveAuthKey. -/
structure AuthKeyMaterial where
  priv : ECPrivateKey
  kid : String
  pubJWK : String
deriving DecidableEq

/-- The domain-separated base message signed during auth-key derivation
(template literal, so a missing userId interpolates as "undefined"). -/
def authKeyBaseMessage (cu : CryptoUtils) : Bytes :=
  strBytes ("auth-key-v1:" ++ (match cu.userId with
    | some u => u
    | none => "undefined"))

/-- deriveAuthKey: HMAC-SHA384 of "auth-key-v1:userId" under the PRF output;
first 32 bytes are the P-256 scalar, remaining 16 the key id. -/
def deriveAuthKey (cu : CryptoUtils) : Except KeyDerivationError AuthKeyMaterial :=
  match importHMACKey cu.prfOutput with
  | .error e => .error e
  | .ok prfKey =>
    let hm := hmacSHA384 prfKey (authKeyBaseMessage cu)
    match importECPrivateKey (hm.take 32) with
    | .error e => .error e
    | .ok priv => .ok { priv := priv, kid := b64S (hm.drop 32), pubJWK := getPublicJWK priv }

/-- Errors of createAuthHeader: missing userId, or a key-derivation error. -/
inductive AuthError
  | missingParams
  | keyDerivation (e : KeyDerivationError)
deriving DecidableEq

/-- The Authorization header payload (global.d.ts StorageAuthHeader). -/
structure StorageAuthHeader where
  userId : String
  keyId : String
  authSignature : String
  timestamp : Int
  pubKey : String
deriving DecidableEq

/-- createAuthHeader: sign the canonical message and assemble the header
object (its base64url-JSON wire encoding is the identity at this level). -/
def createAuthHeader (cu : CryptoUtils) (method secretName : String) (now : Int) :
    Except AuthError StorageAuthHeader :=
  match cu.userId with
  | none => .error .missingParams
  | some uid =>
    match deriveAuthKey cu with
    | .error e => .error (.keyDerivation e)
    | .ok authKey =>
      .ok { userId := uid, keyId := authKey.kid,
            authSignature := sigEncode (ecdsaSign authKey.priv
              (buildAuthMessage method secretName now uid authKey.kid)),
            timestamp := now, pubKey := authKey.pubJWK }

/-! ## Server-side verification (secrets API route) -/

/-- Allowed clock skew for signatures, in ms. -/
def allowedClockSkew : Int := 5 * 60 * 1000

/-- Successful verification result: the digest of the public key and the
claimed user id. -/
structure AuthResult where
  pubKeyDigest : String
  userId : String
deriving DecidableEq

/-- pubKeyDigest: base64url of SHA256(keyId || 0x2e || jwk.x || 0x2e ||
jwk.y). -/
def pubKeyDigest (keyId : String) (pubKeyJWK : JWK) : String :=
  b64S (sha256 (strBytes keyId ++ (0x2e : Nat) :: (strBytes (pubKeyJWK.x.getD "") ++
    (0x2e : Nat) :: strBytes (pubKeyJWK.y.getD ""))))

/-- Model of crypto.subtle.importKey('jwk', ..., ECDSA P-256, ['verify']):
requires an EC P-256 JWK with both coordinates. -/
def importECVerifyKey (j : JWK) : Option ECPublicKey :=
  match j.kty, j.crv, j.x, j.y with
  | some "EC", some "P-256", some xv, some yv => some { x := xv, y := yv }
  | _, _, _, _ => none

/-- parseAuthHeader of the secrets route.  The `Option StorageAuthHeader`
argument models the header value: `none` is a missing, empty, or
base64/JSON-malformed header.  Field-presence checks mirror JS falsiness
(empty string, zero timestamp). -/
def parseAuthHeader (method secretName : String)
    (authHeaderValue : Option StorageAuthHeader) (now : Int) : Option AuthResult :=
  match authHeaderValue with
  | none => none
  | some sah =>
    if sah.authSignature = "" ∨ sah.keyId = "" ∨ sah.pubKey = "" ∨
        sah.timestamp = 0 ∨ sah.userId = "" then none
    else if sah.timestamp < now - allowedClockSkew / 2 ∨
        sah.timestamp > now + allowedClockSkew / 2 then none
    else
      match jwkParse sah.pubKey with
      | none => none
      | some pubKeyJWK =>
        match importECVerifyKey pubKeyJWK with
        | none => none
        | some pubKey =>
          match sigDecode sah.authSignature with
          | none => none
          | some sig =>
            if ecdsaVerify pubKey sig
                (buildAuthMessage method secretName sah.timestamp sah.userId sah.keyId)
            then some { pubKeyDigest := pubKeyDigest sah.keyId pubKeyJWK,
                        userId := sah.userId }
            else none

/-! ## AEAD encryption (AES-256-GCM keyed by HKDF-SHA256) -/

/-- An HKDF-SHA256-derived AES-GCM key: determined by the input key material,
the salt and the info string (HKDF determinism). -/
structure AESGCMKey where
  ikm : Bytes
  salt : Bytes
  info : Bytes
deriving DecidableEq

/-- deriveEncryptionKey: HKDF-SHA256 of the PRF output with the given salt and
the instance's base message as info. -/
def deriveEncryptionKey (cu : CryptoUtils) (salt : Bytes) : AESGCMKey :=
  { ikm := cu.prfOutput, salt := salt, info := strBytes cu.baseMessage }

/-- A symbolic AES-GCM ciphertext: records key, iv, additional data and
plaintext. -/
structure AESGCMCiphertext where
  key : AESGCMKey
  iv : Bytes
  ad : Bytes
  pt : String
deriving DecidableEq

def aesGcmEncrypt (key : AESGCMKey) (iv ad : Bytes) (pt : String) : AESGCMCiphertext :=
  { key := key, iv := iv, ad := ad, pt := pt }

/-- AES-GCM decryption authenticates key, iv and additional data; any
mismatch (tampering, wrong key) fails. -/
def aesGcmDecrypt (key : AESGCMKey) (iv ad : Bytes) (ct : AESGCMCiphertext) :
    Option String :=
  if ct.key = key ∧ ct.iv = iv ∧ ct.ad = ad then some ct.pt else none

/-! ## Stored records and the client SecretCodec (Save / Get / Delete) -/

/-- StoredSecret record.  salt and nonce are base64url strings as stored;
encryptedData holds the symbolic AES-GCM ciphertext (the base64url transport
of the opaque ciphertext bytes is the identity at this level). -/
structure StoredSecret where
  id : String
  name : String
  encryptedData : AESGCMCiphertext
  salt : String
  nonce : String
  timestamp : Int
deriving DecidableEq

/-- localStorage (with the JSON round trip of records as the identity):
a map from storage key to record. -/
def LocalStorage := String → Option StoredSecret

/-- The record Save assembles: fresh salt and nonce (passed in, drawn from
the CSPRNG by the caller), key derived from the salt, name bound as
additional data. -/
def buildStoredSecret (cu : CryptoUtils) (secretName secretData : String)
    (salt nonce : Bytes) (id : String) (now : Int) : StoredSecret :=
  { id := id, name := secretName,
    encryptedData := aesGcmEncrypt (deriveEncryptionKey cu salt) nonce
      (strBytes secretName) secretData,
    salt := b64S salt, nonce := b64S nonce, timestamp := now }

/-- Save: encrypt and persist.  In cloud mode the record is POSTed (returned
as the second component); otherwise it is written to localStorage under
`secretName ++ "-enc"`. -/
def Save (cu : CryptoUtils) (store : LocalStorage) (secretName secretData : String)
    (salt nonce : Bytes) (id : String) (now : Int) :
    LocalStorage × Option StoredSecret :=
  let record := buildStoredSecret cu secretName secretData salt nonce id now
  if cu.useCloudStorage ∧ cu.userId.isSome then
    (store, some record)
  else
    (fun k => if k = secretName ++ "-enc" then some record else store k, none)

/-- Get / Delete failure modes: SecretNotFoundError is rethrown as is; every
other failure is wrapped in a generic Error. -/
inductive GetError
  | secretNotFound
  | generic
deriving DecidableEq

/-- The GET /api/secrets response as the client sees it. -/
structure CloudGetResult where
  status : Nat
  data : Option StoredSecret

/-- getFromCloud: 404 throws SecretNotFoundError; any other non-ok response
throws a generic error; an ok response yields result.data. -/
def getFromCloud (resp : CloudGetResult) : Except GetError StoredSecret :=
  if resp.status = 404 then .error .secretNotFound
  else if ¬(200 ≤ resp.status ∧ resp.status ≤ 299) then .error .generic
  else
    match resp.data with
    | some d => .ok d
    | none => .error .generic

/-- Get: load the record (cloud or localStorage), re-derive the key from the
stored salt, decrypt with the stored nonce and the name as additional data.
Decode or decryption failures become a generic error. -/
def Get (cu : CryptoUtils) (store : LocalStorage) (resp : CloudGetResult)
    (secretName : String) : Except GetError String :=
  let loaded : Except GetError StoredSecret :=
    if cu.useCloudStorage ∧ cu.userId.isSome then getFromCloud resp
    else
      match store (secretName ++ "-enc") with
      | none => .error .secretNotFound
      | some s => .ok s
  match loaded with
  | .error e => .error e
  | .ok secret =>
    match b64DecodeS secret.salt, b64DecodeS secret.nonce with
    | some salt, some nonce =>
      match aesGcmDecrypt (deriveEncryptionKey cu salt) nonce (strBytes secretName)
          secret.encryptedData with
      | some pt => .ok pt
      | none => .error .generic
    | _, _ => .error .generic

/-- removeItem on localStorage (a no-op when the key is absent). -/
def deleteLocal (store : LocalStorage) (secretName : String) : LocalStorage :=
  fun k => if k = secretName ++ "-enc" then none else store k

/-- The DELETE /api/secrets response as the client sees it. -/
structure CloudDelResult where
  status : Nat

/-- deleteFromCloud: throws only when the response is neither ok nor 404. -/
def deleteFromCloud (resp : CloudDelResult) : Except GetError Unit :=
  if ¬(200 ≤ resp.status ∧ resp.status ≤ 299) ∧ resp.status ≠ 404 then .error .generic
  else .ok ()

/-- Delete: cloud mode delegates to deleteFromCloud; local mode removes the
localStorage item. -/
def Delete (cu : CryptoUtils) (store : LocalStorage) (resp : CloudDelResult)
    (secretName : String) : Except GetError LocalStorage :=
  if cu.useCloudStorage ∧ cu.userId.isSome then
    match deleteFromCloud resp with
    | .error e => .error e
    | .ok _ => .ok store
  else .ok (deleteLocal store secretName)

/-! ## Server handlers (secrets API route: POST / GET / DELETE) -/

/-- The server-side persisted blob (CloudStoredSecret); `data` is the opaque
client record. -/
structure CloudStoredSecret where
  name : String
  data : StoredSecret
  pubKeyDigest : String
  timestamp : Int
deriving DecidableEq

/-- The Vercel Blob store: path to blob. -/
def BlobStore := String → Option CloudStoredSecret

/-- Storage operations a handler performs against the blob backend. -/
inductive StorageOp
  | headOp (path : String)
  | putOp (path : String)
  | getOp (path : String)
  | delOp (path : String)
deriving DecidableEq

/-- A handler outcome: HTTP status, resulting blob store, and the storage
operations performed. -/
structure HandlerResult where
  status : Nat
  store : BlobStore
  ops : List StorageOp

/-- The deterministic blob path for a secret. -/
def secretPath (userId secretName : String) : String :=
  "secrets/" ++ userId ++ "/" ++ secretName ++ ".json"

/-- POST handler: validate, then head (result only logged) and put with
allowOverwrite, storing the requester's pubKeyDigest.  The request body is
`none` when request.json() throws, `some none` when body.data is missing. -/
def handlePOST (configured : Bool) (secretName : String)
    (authHeaderValue : Option StorageAuthHeader) (body : Option (Option StoredSecret))
    (now : Int) (store : BlobStore) : HandlerResult :=
  if ¬configured then { status := 503, store := store, ops := [] }
  else if secretName = "" then { status := 400, store := store, ops := [] }
  else
    match parseAuthHeader "POST" secretName authHeaderValue now with
    | none => { status := 401, store := store, ops := [] }
    | some auth =>
      match body with
      | none => { status := 500, store := store, ops := [] }
      | some none => { status := 400, store := store, ops := [] }
      | some (some d) =>
        let blobPath := secretPath auth.userId secretName
        { status := 200,
          store := fun k => if k = blobPath then
              some { name := secretName, data := d, pubKeyDigest := auth.pubKeyDigest,
                     timestamp := now }
            else store k,
          ops := [.headOp blobPath, .putOp blobPath] }

/-- GET handler: validate, then fetch the blob; 404 when absent. -/
def handleGET (configured : Bool) (secretName : String)
    (authHeaderValue : Option StorageAuthHeader) (now : Int) (store : BlobStore) :
    HandlerResult :=
  if ¬configured then { status := 503, store := store, ops := [] }
  else if secretName = "" then { status := 400, store := store, ops := [] }
  else
    match parseAuthHeader "GET" secretName authHeaderValue now with
    | none => { status := 401, store := store, ops := [] }
    | some auth =>
      let blobPath := secretPath auth.userId secretName
      match store blobPath with
      | none => { status := 404, store := store, ops := [.getOp blobPath] }
      | some _ => { status := 200, store := store, ops := [.getOp blobPath] }

/-- DELETE handler: validate, then del; BlobNotFoundError (absent blob) is
success ("already deleted"). -/
def handleDELETE (configured : Bool) (secretName : String)
    (authHeaderValue : Option StorageAuthHeader) (now : Int) (store : BlobStore) :
    HandlerResult :=
  if ¬configured then { status := 503, store := store, ops := [] }
  else if secretName = "" then { status := 400, store := store, ops := [] }
  else
    match parseAuthHeader "DELETE" secretName authHeaderValue now with
    | none => { status := 401, store := store, ops := [] }
    | some auth =>
      let blobPath := secretPath auth.userId secretName
      match store blobPath with
      | none => { status := 200, store := store, ops := [.delOp blobPath] }
      | some _ =>
        { status := 200, store := fun k => if k = blobPath then none else store k,
          ops := [.delOp blobPath] }

/-! ## Helper lemmas about created tokens -/

theorem strMk_ne_empty (c : Char) (l : List Char) : String.mk (c :: l) ≠ "" := by
  simp [String.ext_iff]

theorem b64Encode_ne_nil : ∀ bs : Bytes, bs ≠ [] → b64Encode bs ≠ []
  | [], h => absurd rfl h
  | [_], _ => by simp [b64Encode]
  | [_, _], _ => by simp [b64Encode]
  | _ :: _ :: _ :: _, _ => by simp [b64Encode]

theorem b64S_ne_empty (bs : Bytes) (h : bs ≠ []) : b64S bs ≠ "" := by
  have hne := b64Encode_ne_nil bs h
  simpa [b64S, String.ext_iff] using hne

theorem sigEncode_ne_empty (sig : ECDSASignature) : sigEncode sig ≠ "" :=
  strMk_ne_empty _ _

theorem jwkToString_ne_empty (j : JWK) : jwkToString j ≠ "" := by
  simp [jwkToString, String.ext_iff]

theorem hmac_take32_length (k m : Bytes) : ((hmacSHA384 k m).take 32).length = 32 := by
  simp [List.length_take, hmacSHA384_length]

theorem hmac_take32_lt (k m : Bytes) : ∀ b ∈ (hmacSHA384 k m).take 32, b < 256 :=
  fun b hb => hmacSHA384_lt k m b (List.take_subset _ _ hb)

theorem hmac_drop32_ne_nil (k m : Bytes) : (hmacSHA384 k m).drop 32 ≠ [] := by
  intro hh
  have := congrArg List.length hh
  rw [List.length_drop, hmacSHA384_length] at this
  simp at this

theorem importECPrivateKey_ok (pkBuf : Bytes) (h : pkBuf.length = 32) :
    importECPrivateKey pkBuf = .ok
      { jwk := { kty := some "EC", crv := some "P-256", d := some (b64S pkBuf),
                 x := some (b64S (p256PubX pkBuf)), y := some (b64S (p256PubY pkBuf)),
                 use := none, key_ops := none },
        scalar := pkBuf } := by
  simp [importECPrivateKey, h]

/-- The Authorization header produced by a successful createAuthHeader,
fully computed. -/
theorem createAuthHeader_ok (cu : CryptoUtils) (uid : String) (hu : cu.userId = some uid)
    (hprf : cu.prfOutput ≠ []) (method secretName : String) (ts : Int) :
    createAuthHeader cu method secretName ts = .ok
      { userId := uid,
        keyId := b64S ((hmacSHA384 cu.prfOutput (authKeyBaseMessage cu)).drop 32),
        authSignature := sigEncode
          { signerD := (hmacSHA384 cu.prfOutput (authKeyBaseMessage cu)).take 32,
            msg := buildAuthMessage method secretName ts uid
              (b64S ((hmacSHA384 cu.prfOutput (authKeyBaseMessage cu)).drop 32)) },
        timestamp := ts,
        pubKey := jwkToString
          { kty := some "EC", crv := some "P-256", d := none,
            x := some (b64S (p256PubX
              ((hmacSHA384 cu.prfOutput (authKeyBaseMessage cu)).take 32))),
            y := some (b64S (p256PubY
              ((hmacSHA384 cu.prfOutput (authKeyBaseMessage cu)).take 32))),
            use := none, key_ops := some ["verify"] } } := by
  have h1 : importHMACKey cu.prfOutput = .ok cu.prfOutput := by
    simp [importHMACKey, hprf]
  have h2 := importECPrivateKey_ok _ (hmac_take32_length cu.prfOutput (authKeyBaseMessage cu))
  simp [createAuthHeader, hu, deriveAuthKey, h1, h2, getPublicJWK, getPublicJWKObj,
    exportJWK, ecdsaSign]

/-- A token freshly created with a valid userId and nonempty root secret,
whose timestamp is nonzero and inside the skew window, is accepted by
parseAuthHeader for the same method and secretName. -/
theorem parseAuthHeader_accepts (cu : CryptoUtils) (uid : String) (hu : cu.userId = some uid)
    (hprf : cu.prfOutput ≠ []) (huid : uid ≠ "") (method secretName : String) (ts now : Int)
    (hts0 : ts ≠ 0) (hlo : ¬ts < now - allowedClockSkew / 2)
    (hhi : ¬ts > now + allowedClockSkew / 2) (hdr : StorageAuthHeader)
    (hok : createAuthHeader cu method secretName ts = .ok hdr) :
    ∃ res : AuthResult, parseAuthHeader method secretName (some hdr) now = some res ∧
      res.userId = uid := by
  rw [createAuthHeader_ok cu uid hu hprf method secretName ts] at hok
  have hhdr : _ = hdr := Except.ok.inj hok
  subst hhdr
  have hc1 : ¬(sigEncode
      { signerD := (hmacSHA384 cu.prfOutput (authKeyBaseMessage cu)).take 32,
        msg := buildAuthMessage method secretName ts uid
          (b64S ((hmacSHA384 cu.prfOutput (authKeyBaseMessage cu)).drop 32)) } = "" ∨
      b64S ((hmacSHA384 cu.prfOutput (authKeyBaseMessage cu)).drop 32) = "" ∨
      jwkToString
        { kty := some "EC", crv := some "P-256", d := none,
          x := some (b64S (p256PubX
            ((hmacSHA384 cu.prfOutput (authKeyBaseMessage cu)).take 32))),
          y := some (b64S (p256PubY
            ((hmacSHA384 cu.prfOutput (authKeyBaseMessage cu)).take 32))),
          use := none, key_ops := some ["verify"] } = "" ∨
      ts = 0 ∨ uid = "") := by
    push_neg
    exact ⟨sigEncode_ne_empty _, b64S_ne_empty _ (hmac_drop32_ne_nil _ _),
      jwkToString_ne_empty _, hts0, huid⟩
  have hc2 : ¬(ts < now - allowedClockSkew / 2 ∨ ts > now + allowedClockSkew / 2) := by
    push_neg
    exact ⟨le_of_not_lt hlo, le_of_not_lt hhi⟩
  refine ⟨{ pubKeyDigest := pubKeyDigest
                (b64S ((hmacSHA384 cu.prfOutput (authKeyBaseMessage cu)).drop 32))
                { kty := some "EC", crv := some "P-256", d := none,
                  x := some (b64S (p256PubX
                    ((hmacSHA384 cu.prfOutput (authKeyBaseMessage cu)).take 32))),
                  y := some (b64S (p256PubY
                    ((hmacSHA384 cu.prfOutput (authKeyBaseMessage cu)).take 32))),
                  use := none, key_ops := some ["verify"] },
            userId := uid }, ?_, rfl⟩
  simp only [parseAuthHeader, if_neg hc1, if_neg hc2, jwkParse_jwkToString,
    importECVerifyKey, ecdsaVerify]
  rw [sigDecode_sigEncode _ (hmac_take32_lt cu.prfOutput (authKeyBaseMessage cu))]
  simp

/-! ## Concrete fixtures used by the witnesses -/

/-- A trivial header, used as a fallback when extracting a created header. -/
def emptyHdr : StorageAuthHeader :=
  { userId := "", keyId := "", authSignature := "", timestamp := 0, pubKey := "" }

/-- A concrete cloud-mode codec instance. -/
def wCU : CryptoUtils :=
  { prfOutput := List.replicate 32 7, baseMessage := "bm", userId := some "user1",
    useCloudStorage := true }

/-- The header a codec creates, extracted from the Except. -/
def hdrOf (cu : CryptoUtils) (method secretName : String) (ts : Int) : StorageAuthHeader :=
  match createAuthHeader cu method secretName ts with
  | .ok h => h
  | .error _ => emptyHdr

/-- The verification result the server computes, extracted from the Option. -/
def authOf (method secretName : String) (hdr : StorageAuthHeader) (now : Int) : AuthResult :=
  match parseAuthHeader method secretName (some hdr) now with
  | some a => a
  | none => { pubKeyDigest := "", userId := "" }

/-! ## Claim theorems -/

/-- C1: For every secret name N and plaintext P, Get(N) after Save(N, P) on a
codec instance holding the same root secret, reading the record Save wrote,
returns exactly P: the decryption key re-derived from the stored salt equals
the encryption key, and AES-GCM decryption with the stored nonce and N as
associated data inverts the encryption.  First conjunct: local mode, reading
the updated localStorage; second conjunct: cloud mode, reading the saved
record back from a 200 response. -/
theorem save_get_roundtrip (prf : Bytes) (bm : String) (store : LocalStorage)
    (secretName secretData : String) (salt nonce : Bytes) (id : String) (ts : Int)
    (resp : CloudGetResult) (uid : String)
    (hs : ∀ b ∈ salt, b < 256) (hn : ∀ b ∈ nonce, b < 256) :
    Get { prfOutput := prf, baseMessage := bm }
      (Save { prfOutput := prf, baseMessage := bm } store secretName secretData
        salt nonce id ts).1 resp secretName = .ok secretData ∧
    Get { prfOutput := prf, baseMessage := bm, userId := some uid, useCloudStorage := true }
      store
      { status := 200,
        data := (Save { prfOutput := prf, baseMessage := bm, userId := some uid,
                        useCloudStorage := true }
          store secretName secretData salt nonce id ts).2 }
      secretName = .ok secretData := by
  constructor
  · simp [Save, Get, buildStoredSecret, getFromCloud, b64DecodeS_b64S salt hs,
      b64DecodeS_b64S nonce hn, aesGcmDecrypt, aesGcmEncrypt]
  · simp [Save, Get, buildStoredSecret, getFromCloud, b64DecodeS_b64S salt hs,
      b64DecodeS_b64S nonce hn, aesGcmDecrypt, aesGcmEncrypt]

/-- Witness for C1 at concrete inputs. -/
theorem save_get_roundtrip_witness :
    (∀ b ∈ [0, 1, 2, 3, 4, 5, 6, 7, 8, 9, 10, 11], b < 256) ∧
    Get { prfOutput := List.replicate 32 0, baseMessage := "home-assistant" }
      (Save { prfOutput := List.replicate 32 0, baseMessage := "home-assistant" }
        (fun _ => none) "token" "abc123" [0, 1, 2, 3, 4, 5, 6, 7, 8, 9, 10, 11]
        [11, 10, 9, 8, 7, 6, 5, 4, 3, 2, 1, 0] "id1" 5).1
      { status := 0, data := none } "token" = .ok "abc123" :=
  ⟨by decide,
   (save_get_roundtrip (List.replicate 32 0) "home-assistant" (fun _ => none) "token"
     "abc123" [0, 1, 2, 3, 4, 5, 6, 7, 8, 9, 10, 11] [11, 10, 9, 8, 7, 6, 5, 4, 3, 2, 1, 0]
     "id1" 5 { status := 0, data := none } "u" (by decide) (by decide)).1⟩

/-- C5: Get(name) fails with SecretNotFoundError exactly when no record
exists (local: no localStorage entry; cloud: 404), and with a generic error
(never SecretNotFoundError) when a record exists but decoding or decryption
fails. -/
theorem get_error_modes (prf : Bytes) (bm uid : String) (store : LocalStorage)
    (resp : CloudGetResult) (secretName : String) (s : StoredSecret) :
    (store (secretName ++ "-enc") = none →
      Get { prfOutput := prf, baseMessage := bm } store resp secretName =
        .error .secretNotFound) ∧
    (resp.status = 404 →
      Get { prfOutput := prf, baseMessage := bm, userId := some uid,
            useCloudStorage := true } store resp secretName = .error .secretNotFound) ∧
    (store (secretName ++ "-enc") = some s →
      Get { prfOutput := prf, baseMessage := bm } store resp secretName ≠
        .error .secretNotFound) ∧
    (store (secretName ++ "-enc") = some s →
      ∀ salt nonce : Bytes, b64DecodeS s.salt = some salt → b64DecodeS s.nonce = some nonce →
      aesGcmDecrypt (deriveEncryptionKey { prfOutput := prf, baseMessage := bm } salt)
        nonce (strBytes secretName) s.encryptedData = none →
      Get { prfOutput := prf, baseMessage := bm } store resp secretName =
        .error .generic) ∧
    (resp.status ≠ 404 →
      Get { prfOutput := prf, baseMessage := bm, userId := some uid,
            useCloudStorage := true } store resp secretName ≠
        .error .secretNotFound) := by
  refine ⟨?_, ?_, ?_, ?_, ?_⟩
  · intro h
    simp [Get, h]
  · intro h
    simp [Get, getFromCloud, h]
  · intro h
    simp only [Get, h]
    rcases hsalt : b64DecodeS s.salt with _ | salt
    · simp [hsalt]
    rcases hnonce : b64DecodeS s.nonce with _ | nonce
    · simp [hsalt, hnonce]
    rcases hdec : aesGcmDecrypt (deriveEncryptionKey
        { prfOutput := prf, baseMessage := bm } salt) nonce (strBytes secretName)
        s.encryptedData with _ | pt
    · simp [hsalt, hnonce, hdec]
    · simp [hsalt, hnonce, hdec]
  · intro h salt nonce hsalt hnonce hdec
    simp [Get, h, hsalt, hnonce, hdec]
  · intro h404
    have hnf : ∀ e, getFromCloud resp = .error e → e ≠ .secretNotFound := by
      intro e he
      simp only [getFromCloud, if_neg h404] at he
      split at he
      · simp only [Except.error.injEq] at he
        subst he
        decide
      · split at he
        · simp at he
        · simp only [Except.error.injEq] at he
          subst he
          decide
    intro hcontra
    simp only [Get] at hcontra
    rcases hg : getFromCloud resp with e | secret
    · rw [hg] at hcontra
      simp at hcontra
      exact hnf e hg hcontra
    · rw [hg] at hcontra
      rcases hsalt : b64DecodeS secret.salt with _ | salt
      · simp [hsalt] at hcontra
      rcases hnonce : b64DecodeS secret.nonce with _ | nonce
      · simp [hsalt, hnonce] at hcontra
      rcases hdec : aesGcmDecrypt (deriveEncryptionKey
          { prfOutput := prf, baseMessage := bm, userId := some uid,
            useCloudStorage := true } salt) nonce (strBytes secretName)
          secret.encryptedData with _ | pt
      · simp [hsalt, hnonce, hdec] at hcontra
      · simp [hsalt, hnonce, hdec] at hcontra

/-- Witness for C5 at concrete inputs: an empty store, a 404 response, and a
store holding a record whose associated data does not match the requested
name. -/
theorem get_error_modes_witness :
    Get { prfOutput := [7], baseMessage := "bm" } (fun _ => none)
      { status := 0, data := none } "foo" = .error .secretNotFound ∧
    Get { prfOutput := [7], baseMessage := "bm", userId := some "u",
          useCloudStorage := true } (fun _ => none) { status := 404, data := none } "foo" =
      .error .secretNotFound ∧
    Get { prfOutput := [7], baseMessage := "bm" }
      (fun k => if k = "foo-enc" then
        some { id := "i", name := "foo",
               encryptedData := aesGcmEncrypt
                 (deriveEncryptionKey { prfOutput := [7], baseMessage := "bm" } [1]) [2]
                 (strBytes "bar") "pt",
               salt := b64S [1], nonce := b64S [2], timestamp := 0 }
        else none)
      { status := 0, data := none } "foo" = .error .generic :=
  ⟨(get_error_modes [7] "bm" "u" (fun _ => none) { status := 0, data := none } "foo"
      { id := "", name := "", encryptedData := aesGcmEncrypt
          (deriveEncryptionKey { prfOutput := [7], baseMessage := "bm" } []) [] [] "",
        salt := "", nonce := "", timestamp := 0 }).1 rfl,
   (get_error_modes [7] "bm" "u" (fun _ => none) { status := 404, data := none } "foo"
      { id := "", name := "", encryptedData := aesGcmEncrypt
          (deriveEncryptionKey { prfOutput := [7], baseMessage := "bm" } []) [] [] "",
        salt := "", nonce := "", timestamp := 0 }).2.1 rfl,
   (get_error_modes [7] "bm" "u"
      (fun k => if k = "foo-enc" then
        some { id := "i", name := "foo",
               encryptedData := aesGcmEncrypt
                 (deriveEncryptionKey { prfOutput := [7], baseMessage := "bm" } [1]) [2]
                 (strBytes "bar") "pt",
               salt := b64S [1], nonce := b64S [2], timestamp := 0 }
        else none)
      { status := 0, data := none } "foo"
      { id := "i", name := "foo",
        encryptedData := aesGcmEncrypt
          (deriveEncryptionKey { prfOutput := [7], baseMessage := "bm" } [1]) [2]
          (strBytes "bar") "pt",
        salt := b64S [1], nonce := b64S [2], timestamp := 0 }).2.2.2.1 (by decide) [1] [2]
      (by decide) (by decide) (by decide)⟩

/-- C8: Delete(name) is idempotent and never fails because the secret is
absent: local removal of a non-existent record is a no-op and always
succeeds; the client treats a 404 DELETE response as success; and the
server's DELETE handler returns 200 for an absent blob and is idempotent on
the store. -/
theorem delete_idempotent (prf : Bytes) (bm : String) (store : LocalStorage)
    (resp : CloudDelResult) (secretName : String) (hv : Option StorageAuthHeader)
    (now : Int) (bstore : BlobStore) (auth : AuthResult) :
    (Delete { prfOutput := prf, baseMessage := bm } store resp secretName =
      .ok (deleteLocal store secretName)) ∧
    (store (secretName ++ "-enc") = none → deleteLocal store secretName = store) ∧
    (resp.status = 404 → deleteFromCloud resp = .ok ()) ∧
    (secretName ≠ "" → parseAuthHeader "DELETE" secretName hv now = some auth →
      (handleDELETE true secretName hv now bstore).status = 200 ∧
      (handleDELETE true secretName hv now
        (handleDELETE true secretName hv now bstore).store).status = 200 ∧
      (handleDELETE true secretName hv now
        (handleDELETE true secretName hv now bstore).store).store =
        (handleDELETE true secretName hv now bstore).store) := by
  refine ⟨?_, ?_, ?_, ?_⟩
  · simp [Delete]
  · intro h
    funext k
    by_cases hk : k = secretName ++ "-enc"
    · simp [deleteLocal, hk, h.symm]
    · simp [deleteLocal, hk]
  · intro h
    simp [deleteFromCloud, h]
  · intro hsn hp
    rcases hb : bstore (secretPath auth.userId secretName) with _ | c
    · simp [handleDELETE, hsn, hp, hb]
    · refine ⟨by simp [handleDELETE, hsn, hp, hb], ?_, ?_⟩
      · simp [handleDELETE, hsn, hp, hb]
      · simp [handleDELETE, hsn, hp, hb]

/-- Witness for C8 at concrete inputs: an empty localStorage, a 404 response,
a missing-header validation failure is not used here — instead a validly
parsed DELETE on an empty blob store. -/
theorem delete_idempotent_witness :
    (deleteLocal (fun _ => none) "foo" = (fun _ => none : LocalStorage)) ∧
    deleteFromCloud { status := 404 } = .ok () ∧
    (handleDELETE true "foo" (some (hdrOf wCU "DELETE" "foo" 1000)) 1000
      (fun _ => none)).status = 200 :=
  ⟨(delete_idempotent [7] "bm" (fun _ => none) { status := 404 } "foo" none 0
      (fun _ => none) { pubKeyDigest := "", userId := "" }).2.1 rfl,
   (delete_idempotent [7] "bm" (fun _ => none) { status := 404 } "foo" none 0
      (fun _ => none) { pubKeyDigest := "", userId := "" }).2.2.1 rfl,
   ((delete_idempotent (List.replicate 32 7) "bm" (fun _ => none) { status := 404 } "foo"
      (some (hdrOf wCU "DELETE" "foo" 1000)) 1000 (fun _ => none)
      (authOf "DELETE" "foo" (hdrOf wCU "DELETE" "foo" 1000) 1000)).2.2.2 (by decide)
      (by decide)).1⟩

/-- C6: Signing-key derivation fails with a KeyDerivationError when the root
secret is empty or undefined, and importECPrivateKey fails when the private
scalar is not exactly 32 bytes; under those preconditions no key is
produced. -/
theorem key_derivation_errors (cu : CryptoUtils) (pkBuf : Bytes) :
    (cu.prfOutput = [] → deriveAuthKey cu = .error .emptyRootSecret) ∧
    (pkBuf.length ≠ 32 → importECPrivateKey pkBuf = .error .invalidScalarLength) := by
  constructor
  · intro h
    simp [deriveAuthKey, importHMACKey, h]
  · intro h
    simp [importECPrivateKey, h]

/-- Witness for C6: empty root secret and a 3-byte scalar. -/
theorem key_derivation_errors_witness :
    deriveAuthKey { prfOutput := [], baseMessage := "bm" } = .error .emptyRootSecret ∧
    importECPrivateKey [1, 2, 3] = .error .invalidScalarLength :=
  ⟨(key_derivation_errors { prfOutput := [], baseMessage := "bm" } [1, 2, 3]).1 rfl,
   (key_derivation_errors { prfOutput := [], baseMessage := "bm" } [1, 2, 3]).2 (by decide)⟩

/-- C9: The public key JWK produced during signing-key derivation has only
the members kty, crv, x and y, with no private component (no d member), no
use member, and key_ops equal to ["verify"]; the emitted string is its JSON
rendering. -/
theorem public_jwk_members (pkBuf : Bytes) (k : ECPrivateKey)
    (h : importECPrivateKey pkBuf = .ok k) :
    (getPublicJWKObj k).d = none ∧ (getPublicJWKObj k).use = none ∧
    (getPublicJWKObj k).key_ops = some ["verify"] ∧
    (getPublicJWKObj k).kty = some "EC" ∧ (getPublicJWKObj k).crv = some "P-256" ∧
    (getPublicJWKObj k).x = some (b64S (p256PubX pkBuf)) ∧
    (getPublicJWKObj k).y = some (b64S (p256PubY pkBuf)) ∧
    getPublicJWK k = jwkToString (getPublicJWKObj k) := by
  by_cases hl : pkBuf.length = 32
  · rw [importECPrivateKey_ok pkBuf hl] at h
    have hk : _ = k := Except.ok.inj h
    subst hk
    simp [getPublicJWKObj, exportJWK, getPublicJWK]
  · simp [importECPrivateKey, hl] at h

/-- Witness for C9 at a concrete 32-byte scalar. -/
theorem public_jwk_members_witness :
    importECPrivateKey (List.replicate 32 3) = .ok
      { jwk := { kty := some "EC", crv := some "P-256",
                 d := some (b64S (List.replicate 32 3)),
                 x := some (b64S (p256PubX (List.replicate 32 3))),
                 y := some (b64S (p256PubY (List.replicate 32 3))),
                 use := none, key_ops := none },
        scalar := List.replicate 32 3 } ∧
    (getPublicJWKObj
      { jwk := { kty := some "EC", crv := some "P-256",
                 d := some (b64S (List.replicate 32 3)),
                 x := some (b64S (p256PubX (List.replicate 32 3))),
                 y := some (b64S (p256PubY (List.replicate 32 3))),
                 use := none, key_ops := none },
        scalar := List.replicate 32 3 }).d = none :=
  ⟨importECPrivateKey_ok (List.replicate 32 3) (by decide),
   (public_jwk_members (List.replicate 32 3) _
     (importECPrivateKey_ok (List.replicate 32 3) (by decide))).1⟩

/-- C2: A token produced by createAuthHeader(method, secretName) is rejected
(verification returns null) when checked against any different method or any
different secretName: both sides serialize the signed message with method and
secretName in the same positions, so the signature cannot validate over a
message with either field changed. -/
theorem signature_binding (cu : CryptoUtils) (uid : String) (hu : cu.userId = some uid)
    (method secretName method2 secretName2 : String) (ts now : Int)
    (hdr : StorageAuthHeader)
    (hne : method2 ≠ method ∨ secretName2 ≠ secretName)
    (hok : createAuthHeader cu method secretName ts = .ok hdr) :
    parseAuthHeader method2 secretName2 (some hdr) now = none := by
  have hprf : cu.prfOutput ≠ [] := by
    intro h0
    simp [createAuthHeader, hu, deriveAuthKey, importHMACKey, h0] at hok
  rw [createAuthHeader_ok cu uid hu hprf method secretName ts] at hok
  have hhdr : _ = hdr := Except.ok.inj hok
  subst hhdr
  have hmsgne : ¬(buildAuthMessage method secretName ts uid
      (b64S ((hmacSHA384 cu.prfOutput (authKeyBaseMessage cu)).drop 32)) =
    buildAuthMessage method2 secretName2 ts uid
      (b64S ((hmacSHA384 cu.prfOutput (authKeyBaseMessage cu)).drop 32))) := by
    intro he
    obtain ⟨hm, hsn⟩ := buildAuthMessage_inj he
    rcases hne with h | h
    · exact h hm.symm
    · exact h hsn.symm
  simp only [parseAuthHeader, jwkParse_jwkToString, importECVerifyKey, ecdsaVerify]
  rw [sigDecode_sigEncode _ (hmac_take32_lt cu.prfOutput (authKeyBaseMessage cu))]
  simp [hmsgne]

/-- Witness for C2: a token for GET/foo replayed against POST/foo. -/
theorem signature_binding_witness :
    createAuthHeader wCU "GET" "foo" 1000 = .ok (hdrOf wCU "GET" "foo" 1000) ∧
    parseAuthHeader "POST" "foo" (some (hdrOf wCU "GET" "foo" 1000)) 1000 = none :=
  ⟨rfl,
   signature_binding wCU "user1" rfl "GET" "foo" "POST" "foo" 1000 1000
     (hdrOf wCU "GET" "foo" 1000) (Or.inl (by decide)) rfl⟩

/-- C3: Server-side verification rejects every token whose timestamp lies
outside [now − 2.5 min, now + 2.5 min]; in particular timestamp = now − 10
minutes is rejected, and a freshly created valid token with timestamp = now
is accepted. -/
theorem replay_window (m sn : String) (sah : StorageAuthHeader) (now : Int)
    (cu : CryptoUtils) (uid : String) (hdr : StorageAuthHeader) :
    (sah.timestamp < now - allowedClockSkew / 2 ∨
        sah.timestamp > now + allowedClockSkew / 2 →
      parseAuthHeader m sn (some sah) now = none) ∧
    (sah.timestamp = now - 600000 → parseAuthHeader m sn (some sah) now = none) ∧
    (cu.userId = some uid → uid ≠ "" → cu.prfOutput ≠ [] → now ≠ 0 →
      createAuthHeader cu m sn now = .ok hdr →
      ∃ res : AuthResult, parseAuthHeader m sn (some hdr) now = some res ∧
        res.userId = uid) := by
  have hskew : allowedClockSkew / 2 = (150000 : Int) := by decide
  refine ⟨?_, ?_, ?_⟩
  · intro hout
    simp only [parseAuthHeader]
    by_cases hc1 : sah.authSignature = "" ∨ sah.keyId = "" ∨ sah.pubKey = "" ∨
        sah.timestamp = 0 ∨ sah.userId = ""
    · rw [if_pos hc1]
    · rw [if_neg hc1, if_pos hout]
  · intro hts
    simp only [parseAuthHeader]
    by_cases hc1 : sah.authSignature = "" ∨ sah.keyId = "" ∨ sah.pubKey = "" ∨
        sah.timestamp = 0 ∨ sah.userId = ""
    · rw [if_pos hc1]
    · rw [if_neg hc1, if_pos (Or.inl (by rw [hts, hskew]; omega))]
  · intro hu huid hprf hnow hok
    exact parseAuthHeader_accepts cu uid hu hprf huid m sn now now hnow
      (by rw [hskew]; omega) (by rw [hskew]; omega) hdr hok

/-- Witness for C3: a stale header stamped 10 minutes in the past is
rejected; a fresh valid token stamped now is accepted. -/
theorem replay_window_witness :
    parseAuthHeader "GET" "foo"
      (some { userId := "u", keyId := "k", authSignature := "s", timestamp := 400000,
              pubKey := "p" }) 1000000 = none ∧
    (∃ res : AuthResult,
      parseAuthHeader "GET" "foo" (some (hdrOf wCU "GET" "foo" 1000)) 1000 = some res ∧
        res.userId = "user1") :=
  ⟨(replay_window "GET" "foo"
      { userId := "u", keyId := "k", authSignature := "s", timestamp := 400000,
        pubKey := "p" } 1000000 wCU "user1" emptyHdr).2.1 (by decide),
   (replay_window "GET" "foo" emptyHdr 1000 wCU "user1"
      (hdrOf wCU "GET" "foo" 1000)).2.2 rfl (by decide) (by decide) (by decide) rfl⟩

/-- C10: The clock-skew boundary is inclusive on both sides: a valid token
whose timestamp is exactly now − 2.5 min or exactly now + 2.5 min passes the
timestamp check (the rejection conditions are strict inequalities) and is
accepted. -/
theorem skew_boundary_inclusive (cu : CryptoUtils) (uid m sn : String) (now : Int)
    (hdrLo hdrHi : StorageAuthHeader)
    (hu : cu.userId = some uid) (huid : uid ≠ "") (hprf : cu.prfOutput ≠ [])
    (hlo0 : now - 150000 ≠ 0) (hhi0 : now + 150000 ≠ 0)
    (hokLo : createAuthHeader cu m sn (now - 150000) = .ok hdrLo)
    (hokHi : createAuthHeader cu m sn (now + 150000) = .ok hdrHi) :
    (∃ res : AuthResult, parseAuthHeader m sn (some hdrLo) now = some res) ∧
    (∃ res : AuthResult, parseAuthHeader m sn (some hdrHi) now = some res) := by
  have hskew : allowedClockSkew / 2 = (150000 : Int) := by decide
  constructor
  · obtain ⟨res, hres, _⟩ := parseAuthHeader_accepts cu uid hu hprf huid m sn
      (now - 150000) now hlo0 (by rw [hskew]; omega) (by rw [hskew]; omega) hdrLo hokLo
    exact ⟨res, hres⟩
  · obtain ⟨res, hres, _⟩ := parseAuthHeader_accepts cu uid hu hprf huid m sn
      (now + 150000) now hhi0 (by rw [hskew]; omega) (by rw [hskew]; omega) hdrHi hokHi
    exact ⟨res, hres⟩

/-- Witness for C10: both boundary timestamps around now = 1000000 are
accepted. -/
theorem skew_boundary_inclusive_witness :
    (∃ res : AuthResult, parseAuthHeader "GET" "foo"
      (some (hdrOf wCU "GET" "foo" 850000)) 1000000 = some res) ∧
    (∃ res : AuthResult, parseAuthHeader "GET" "foo"
      (some (hdrOf wCU "GET" "foo" 1150000)) 1000000 = some res) :=
  skew_boundary_inclusive wCU "user1" "GET" "foo" 1000000
    (hdrOf wCU "GET" "foo" 850000) (hdrOf wCU "GET" "foo" 1150000) rfl (by decide)
    (by decide) (by decide) (by decide) rfl rfl

/-- C4: For every POST carrying a validly-signed token, the server overwrites
any existing blob at secrets/userId/secretName.json unconditionally: the
stored pubKeyDigest is never compared with the requester's, so a different
key producing a valid signature for the same userId replaces the original
writer's data. -/
theorem post_overwrites_unconditionally (secretName : String)
    (hv : Option StorageAuthHeader) (now : Int) (store : BlobStore) (auth : AuthResult)
    (old : CloudStoredSecret) (d : StoredSecret)
    (hsn : secretName ≠ "")
    (hauth : parseAuthHeader "POST" secretName hv now = some auth)
    (hold : store (secretPath auth.userId secretName) = some old)
    (hdiff : old.pubKeyDigest ≠ auth.pubKeyDigest) :
    (handlePOST true secretName hv (some (some d)) now store).status = 200 ∧
    (handlePOST true secretName hv (some (some d)) now store).store
        (secretPath auth.userId secretName) =
      some { name := secretName, data := d, pubKeyDigest := auth.pubKeyDigest,
             timestamp := now } := by
  constructor
  · simp [handlePOST, hsn, hauth]
  · simp [handlePOST, hsn, hauth]

/-- Witness for C4: a validly signed POST overwrites a blob previously
recorded under a different pubKeyDigest. -/
theorem post_overwrites_unconditionally_witness :
    parseAuthHeader "POST" "foo" (some (hdrOf wCU "POST" "foo" 1000)) 1000 =
      some (authOf "POST" "foo" (hdrOf wCU "POST" "foo" 1000) 1000) ∧
    (authOf "POST" "foo" (hdrOf wCU "POST" "foo" 1000) 1000).pubKeyDigest ≠ "other" ∧
    (handlePOST true "foo" (some (hdrOf wCU "POST" "foo" 1000))
      (some (some { id := "i", name := "foo",
                    encryptedData := aesGcmEncrypt
                      (deriveEncryptionKey { prfOutput := [7], baseMessage := "bm" } [1])
                      [2] (strBytes "foo") "pt",
                    salt := b64S [1], nonce := b64S [2], timestamp := 0 })) 1000
      (fun k => if k = secretPath "user1" "foo" then
        some { name := "foo",
               data := { id := "j", name := "foo",
                         encryptedData := aesGcmEncrypt
                           (deriveEncryptionKey { prfOutput := [9], baseMessage := "bm" }
                             [3]) [4] (strBytes "foo") "qt",
                         salt := b64S [3], nonce := b64S [4], timestamp := 0 },
               pubKeyDigest := "other", timestamp := 0 }
        else none)).status = 200 :=
  ⟨by decide, by decide,
   (post_overwrites_unconditionally "foo" (some (hdrOf wCU "POST" "foo" 1000)) 1000
      (fun k => if k = secretPath "user1" "foo" then
        some { name := "foo",
               data := { id := "j", name := "foo",
                         encryptedData := aesGcmEncrypt
                           (deriveEncryptionKey { prfOutput := [9], baseMessage := "bm" }
                             [3]) [4] (strBytes "foo") "qt",
                         salt := b64S [3], nonce := b64S [4], timestamp := 0 },
               pubKeyDigest := "other", timestamp := 0 }
        else none)
      (authOf "POST" "foo" (hdrOf wCU "POST" "foo" 1000) 1000)
      { name := "foo",
        data := { id := "j", name := "foo",
                  encryptedData := aesGcmEncrypt
                    (deriveEncryptionKey { prfOutput := [9], baseMessage := "bm" } [3])
                    [4] (strBytes "foo") "qt",
                  salt := b64S [3], nonce := b64S [4], timestamp := 0 },
        pubKeyDigest := "other", timestamp := 0 }
      { id := "i", name := "foo",
        encryptedData := aesGcmEncrypt
          (deriveEncryptionKey { prfOutput := [7], baseMessage := "bm" } [1]) [2]
          (strBytes "foo") "pt",
        salt := b64S [1], nonce := b64S [2], timestamp := 0 }
      (by decide) (by decide) (by decide) (by decide)).1⟩

/-- C7: For every POST, GET or DELETE request that reaches validation, a
failing authorization header (missing, malformed, missing field, stale
timestamp, bad public key, or signature mismatch — all the cases in which
parseAuthHeader returns null) makes the server respond 401 with the blob
store untouched and no storage operation performed. -/
theorem auth_failure_short_circuits (secretName : String) (hv : Option StorageAuthHeader)
    (now : Int) (store : BlobStore) (body : Option (Option StoredSecret))
    (hsn : secretName ≠ "") :
    (parseAuthHeader "POST" secretName hv now = none →
      handlePOST true secretName hv body now store =
        { status := 401, store := store, ops := [] }) ∧
    (parseAuthHeader "GET" secretName hv now = none →
      handleGET true secretName hv now store =
        { status := 401, store := store, ops := [] }) ∧
    (parseAuthHeader "DELETE" secretName hv now = none →
      handleDELETE true secretName hv now store =
        { status := 401, store := store, ops := [] }) := by
  refine ⟨?_, ?_, ?_⟩
  · intro h
    simp [handlePOST, hsn, h]
  · intro h
    simp [handleGET, hsn, h]
  · intro h
    simp [handleDELETE, hsn, h]

/-- Witness for C7: a missing Authorization header on all three methods. -/
theorem auth_failure_short_circuits_witness :
    handlePOST true "foo" none none 0 (fun _ => none) =
      { status := 401, store := (fun _ => none : BlobStore), ops := [] } ∧
    handleGET true "foo" none 0 (fun _ => none) =
      { status := 401, store := (fun _ => none : BlobStore), ops := [] } ∧
    handleDELETE true "foo" none 0 (fun _ => none) =
      { status := 401, store := (fun _ => none : BlobStore), ops := [] } :=
  ⟨(auth_failure_short_circuits "foo" none 0 (fun _ => none) none (by decide)).1 rfl,
   (auth_failure_short_circuits "foo" none 0 (fun _ => none) none (by decide)).2.1 rfl,
   (auth_failure_short_circuits "foo" none 0 (fun _ => none) none (by decide)).2.2 rfl⟩

end MyHomeApp
